import Mathlib

/-!
Verification of the color-conversion and color-analysis helpers of the
coda_hsluv pack.  The definitions below are shallow embeddings of the
TypeScript source (`helpers.ts`, found as `src/unnamed/part_000`, together
with `pack.ts` and `types.ts`).  JavaScript numbers are modelled as exact
rationals, except for the luminance pipeline whose `Math.pow(x, 2.4)` forces
real numbers.  `Math.round` rounds halves toward positive infinity, i.e.
`⌊x + 1/2⌋`.  The perceptual HSLuv/HPLuv conversions themselves live in the
external `hsluv` npm package (not part of this repository); formulas that
delegate to it are embedded up to that boundary: validation gates keep their
full behavior, and hue-based logic is embedded as a function of the hues the
library computes.
-/

namespace CodaHsluv

/-- JS `Math.round`: round to the nearest integer, ties toward `+∞`. -/
def jsRound (q : ℚ) : ℤ := ⌊q + 1/2⌋

/-- Rounding to 2 decimal places, `Math.round(x * 100) / 100`, as used by
`rgbToCmyk` in helpers.ts. -/
def roundTo2 (q : ℚ) : ℚ := (jsRound (q * 100) : ℚ) / 100

/-- JS `Math.min` on two numbers (NaN never arises in the rational model). -/
def jsMin (a b : ℚ) : ℚ := if a ≤ b then a else b

/-- JS `Math.abs`. -/
def jsAbs (q : ℚ) : ℚ := if q < 0 then -q else q

/-- JS remainder `a % n`.  For a non-negative dividend and positive divisor
(the only situation in which the source applies it, in `rotateHue`) the JS
truncated remainder agrees with the floor remainder written here. -/
def jsMod (a n : ℚ) : ℚ := a - n * ⌊a / n⌋

/-- CMYK record, `CMYKColor` of types.ts. -/
structure CMYKColor where
  c : ℚ
  m : ℚ
  y : ℚ
  k : ℚ
deriving DecidableEq

/-- RGB record with integer channels, `RGBColor` of types.ts as produced by
`cmykToRgb` (whose channels are `Math.round`ed). -/
structure RGBColor where
  r : ℤ
  g : ℤ
  b : ℤ
deriving DecidableEq

/-- helpers.ts `rgbToCmyk` (lines 106-126): provisional `c,m,y = 1 - v/255`,
`k = Math.min(c, m, y)`; short-circuit to `(0,0,0,1)` when `k = 1`, otherwise
rescale by `(value - k)/(1 - k)` and round every component to 2 decimals. -/
def rgbToCmyk (r g b : ℚ) : CMYKColor :=
  let c := 1 - r / 255
  let m := 1 - g / 255
  let y := 1 - b / 255
  let k := jsMin c (jsMin m y)
  if k = 1 then ⟨0, 0, 0, 1⟩
  else
    ⟨roundTo2 ((c - k) / (1 - k)), roundTo2 ((m - k) / (1 - k)),
      roundTo2 ((y - k) / (1 - k)), roundTo2 k⟩

/-- helpers.ts `cmykToRgb` (lines 131-141): `channel = Math.round(255·(1-v)·(1-k))`. -/
def cmykToRgb (c m y k : ℚ) : RGBColor :=
  ⟨jsRound (255 * (1 - c) * (1 - k)),
    jsRound (255 * (1 - m) * (1 - k)),
    jsRound (255 * (1 - y) * (1 - k))⟩

/-- Nat-division form of one CMYK round-trip channel: `v` is the original
channel value and `M` the maximum of the three channels (`M ≥ 1`).  `A` is the
2-decimal numerator of the rescaled component, `B` the one of `k`, and the
result is the `cmykToRgb` output channel.  Proven equal to the rational
computation in `roundTo2_natSub_div`, `roundTo2_k_div` and `jsRound_back_eq`. -/
def cmykBackNat (v M : ℕ) : ℤ :=
  let A : ℤ := ((200 * (M - v) + M) / (2 * M) : ℕ)
  let B : ℤ := ((200 * (255 - M) + 255) / 510 : ℕ)
  (510 * (100 - A) * (100 - B) + 10000) / 20000

/-- Exhaustive check that every CMYK round-trip channel moves by at most 2,
over all pairs (channel value `v`, channel maximum `M`). -/
def cmykCheck : Bool :=
  (List.range 256).all fun M =>
    (List.range (M + 1)).all fun v =>
      M = 0 || decide ((cmykBackNat v M - v).natAbs ≤ 2)

/-- helpers.ts `isValidHsluv` (lines 22-24). -/
def isValidHsluv (h s l : ℚ) : Bool :=
  decide (h ≥ 0) && decide (h ≤ 360) && decide (s ≥ 0) && decide (s ≤ 100) &&
    decide (l ≥ 0) && decide (l ≤ 100)

/-- helpers.ts `isValidHpluv` (lines 29-31). -/
def isValidHpluv (h p l : ℚ) : Bool :=
  decide (h ≥ 0) && decide (h ≤ 360) && decide (p ≥ 0) && decide (p ≤ 100) &&
    decide (l ≥ 0) && decide (l ≤ 100)

/-- Validation gate of the `HsluvToHex` formula (pack.ts lines 146-159): the
formula throws a user-visible error when `isValidHsluv` fails and otherwise
hands the values to the external `hsluv` npm library (not part of this
repository), so the success payload is modelled as `Unit`. -/
def hsluvToHexGate (h s l : ℚ) : Except String Unit :=
  if isValidHsluv h s l then Except.ok ()
  else Except.error "Invalid HSLuv values. Hue: 0-360, Saturation and Lightness: 0-100."

/-- Validation gate of the `HpluvToHex` formula (pack.ts lines 213-226),
analogous to `hsluvToHexGate`. -/
def hpluvToHexGate (h p l : ℚ) : Except String Unit :=
  if isValidHpluv h p l then Except.ok ()
  else Except.error "Invalid HPLuv values. Hue: 0-360, Percent and Lightness: 0-100."

/-- helpers.ts `rotateHue` (lines 99-101): `(h + degrees) % 360`. -/
def rotateHue (h degrees : ℚ) : ℚ := jsMod (h + degrees) 360

/-- helpers.ts `evaluateColorHarmony` (lines 203-219), as a function of the
two HSLuv hues `hsluv_h` that the external `hsluv` library computes for the
two hex colors (the library guarantees hues in `[0, 360)`). -/
def evaluateColorHarmonyHues (h1 h2 : ℚ) : String :=
  let d0 := jsAbs (h1 - h2)
  let d := if d0 > 180 then 360 - d0 else d0
  if d < 30 then "Analogous (harmonious)"
  else if jsAbs (d - 180) < 30 then "Complementary (high contrast)"
  else if jsAbs (d - 120) < 30 then "Triadic (balanced)"
  else if jsAbs (d - 90) < 30 then "Square (vibrant)"
  else "Discordant (use with caution)"

/-- Circular hue distance `min(|Δh|, 360 − |Δh|)`, the quantity named by the
spec for harmony classification. -/
def circularHueDist (x y : ℚ) : ℚ := min |x - y| (360 - |x - y|)

/-- Hue sequence of `TriadicScheme.execute` (pack.ts lines 638-656): the loop
rotates the current hue by 120 twice, so the hues are `h`, `rot(h)`,
`rot(rot(h))`. -/
def triadicSchemeHues (h : ℚ) : List ℚ :=
  [h, rotateHue h 120, rotateHue (rotateHue h 120) 120]

/-- Hue sequence of `TetradicScheme.execute` (pack.ts lines 671-694): each
rotation starts from the base hue, with offsets 60, 180 and 240. -/
def tetradicSchemeHues (h : ℚ) : List ℚ :=
  [h, rotateHue h 60, rotateHue h 180, rotateHue h 240]

/-- Character class of the regex `[0-9A-Fa-f]`, by code point ranges. -/
def isHexDigitChar (c : Char) : Bool :=
  decide (48 ≤ c.toNat ∧ c.toNat ≤ 57) || decide (97 ≤ c.toNat ∧ c.toNat ≤ 102) ||
    decide (65 ≤ c.toNat ∧ c.toNat ≤ 70)

/-- Lowercase-or-digit hex character (`[0-9a-f]`), the digits emitted by
`rgbToHex`. -/
def isLowerHexDigit (c : Char) : Bool :=
  decide (48 ≤ c.toNat ∧ c.toNat ≤ 57) || decide (97 ≤ c.toNat ∧ c.toNat ≤ 102)

/-- helpers.ts `isValidHexColor` (lines 15-17): the regex `^#[0-9A-Fa-f]{6}$`. -/
def isValidHexColor (s : String) : Bool :=
  match s.data with
  | c :: rest => c == '#' && rest.length == 6 && rest.all isHexDigitChar
  | [] => false

/-- Valid hex color whose six digits are all lowercase (or decimal), i.e. a
string in the image of `rgbToHex`. -/
def isLowercaseHexColor (s : String) : Bool :=
  match s.data with
  | c :: rest => c == '#' && rest.length == 6 && rest.all isLowerHexDigit
  | [] => false

/-- JS `parseInt(c, 16)` on a single hex digit character. -/
def hexVal (c : Char) : ℕ :=
  if 48 ≤ c.toNat ∧ c.toNat ≤ 57 then c.toNat - 48
  else if 97 ≤ c.toNat ∧ c.toNat ≤ 102 then c.toNat - 87
  else if 65 ≤ c.toNat ∧ c.toNat ≤ 70 then c.toNat - 55
  else 0

/-- The `.replace(/^#/, '')` step of helpers.ts `hexToRgb`. -/
def stripHash : List Char → List Char
  | '#' :: rest => rest
  | l => l

/-- The `.match(/.{2}/g)` step of helpers.ts `hexToRgb`: consecutive 2-character
chunks, discarding a trailing odd character. -/
def chunkPairs : List Char → List (Char × Char)
  | a :: b :: rest => (a, b) :: chunkPairs rest
  | _ => []

/-- helpers.ts `hexToRgb` (lines 43-50): strip a leading `#`, split into pairs,
parse each pair as a base-16 number; `[0, 0, 0]` when no pair can be formed
(the regex match returning null). -/
def hexToRgb (s : String) : List ℚ :=
  let ps := chunkPairs (stripHash s.data)
  if ps.isEmpty then [0, 0, 0]
  else ps.map fun p => ((16 * hexVal p.1 + hexVal p.2 : ℕ) : ℚ)

/-- Lowercase hex digit character, as produced by JS `Number.prototype.toString(16)`. -/
def hexCharL (n : ℕ) : Char :=
  if n < 10 then Char.ofNat (48 + n) else Char.ofNat (87 + n)

/-- JS `n.toString(16)` on an integer: base-16 digits, lowercase letters,
leading `-` for negative values.  `Nat.toDigits 16` emits exactly the
characters `0-9a-f`. -/
def jsToString16 (n : ℤ) : List Char :=
  if n < 0 then '-' :: Nat.toDigits 16 n.natAbs else Nat.toDigits 16 n.toNat

/-- JS `.padStart(2, '0')`. -/
def padToTwo (l : List Char) : List Char :=
  if l.length < 2 then List.replicate (2 - l.length) '0' ++ l else l

/-- helpers.ts `rgbToHex` (lines 55-59): `'#' +` each channel rounded, printed
in base 16 and left-padded to two digits. -/
def rgbToHex (rgb : List ℚ) : String :=
  ⟨'#' :: (rgb.map fun x => padToTwo (jsToString16 (jsRound x))).join⟩

/-- pack.ts `LinearGradient.execute` (lines 917-939), after the hex validation
and the `2 ≤ steps ≤ 100` bound check: per-step linear interpolation of the
raw device RGB channels, each rounded, re-encoded with `rgbToHex`. -/
def LinearGradient (color1 color2 : String) (steps : ℕ) : List String :=
  let rgb1 := hexToRgb color1
  let rgb2 := hexToRgb color2
  (List.range steps).map fun (i : ℕ) =>
    let ratio : ℚ := (i : ℚ) / ((steps : ℚ) - 1)
    let r := jsRound (rgb1.getD 0 0 * (1 - ratio) + rgb2.getD 0 0 * ratio)
    let g := jsRound (rgb1.getD 1 0 * (1 - ratio) + rgb2.getD 1 0 * ratio)
    let b := jsRound (rgb1.getD 2 0 * (1 - ratio) + rgb2.getD 2 0 * ratio)
    rgbToHex [(r : ℚ), (g : ℚ), (b : ℚ)]

/-- sRGB decode of one encoded channel, the inner map of helpers.ts
`getLuminance` (lines 64-70): `x <= 0.03928 ? x / 12.92 :
Math.pow((x + 0.055) / 1.055, 2.4)`. -/
noncomputable def linearizeChannel (x : ℝ) : ℝ :=
  if x ≤ 0.03928 then x / 12.92 else ((x + 0.055) / 1.055) ^ (2.4 : ℝ)

/-- helpers.ts `getLuminance` (lines 64-70): divide each channel by 255,
linearize, and take the Rec.709 weighted sum. -/
noncomputable def getLuminance (hex : String) : ℝ :=
  let rgb := (hexToRgb hex).map fun (x : ℚ) => ((x : ℝ) / 255)
  let lin := rgb.map linearizeChannel
  0.2126 * lin.getD 0 0 + 0.7152 * lin.getD 1 0 + 0.0722 * lin.getD 2 0

/-- JS `Number(x.toFixed(2))`: round to 2 decimals; on a tie the larger value
is chosen, which for the positive quantities used here matches `round`. -/
noncomputable def toFixed2 (x : ℝ) : ℝ := (round (x * 100) : ℝ) / 100

/-- helpers.ts `calculateContrastRatio` (lines 75-80). -/
noncomputable def calculateContrastRatio (color1 color2 : String) : ℝ :=
  let l1 := getLuminance color1
  let l2 := getLuminance color2
  toFixed2 ((max l1 l2 + 0.05) / (min l1 l2 + 0.05))

/-- types.ts `WCAGLevel`. -/
inductive WCAGLevel where
  | AA
  | AAA
deriving DecidableEq

/-- types.ts `TextSize`. -/
inductive TextSize where
  | large
  | small
deriving DecidableEq

/-- Shape of the types.ts `WCAG_CONTRAST_RATIOS` table. -/
structure ContrastThresholds where
  AA_NORMAL : ℝ
  AA_LARGE : ℝ
  AAA_NORMAL : ℝ
  AAA_LARGE : ℝ

/-- types.ts `WCAG_CONTRAST_RATIOS` (lines 32-37). -/
noncomputable def WCAG_CONTRAST_RATIOS : ContrastThresholds := ⟨4.5, 3.0, 7.0, 4.5⟩

/-- helpers.ts `checkAccessibility` (lines 179-198): compare the (rounded)
contrast ratio against the table entry selected by level and size.  The
source's trailing `return false` is unreachable because `WCAGLevel` has only
the two values matched here. -/
noncomputable def checkAccessibility (fg bg : String) (level : WCAGLevel) (size : TextSize) :
    Prop :=
  let ratio := calculateContrastRatio fg bg
  match level with
  | .AA =>
    match size with
    | .large => ratio ≥ WCAG_CONTRAST_RATIOS.AA_LARGE
    | .small => ratio ≥ WCAG_CONTRAST_RATIOS.AA_NORMAL
  | .AAA =>
    match size with
    | .large => ratio ≥ WCAG_CONTRAST_RATIOS.AAA_LARGE
    | .small => ratio ≥ WCAG_CONTRAST_RATIOS.AAA_NORMAL

/-- The threshold table as the claim states it: 4.5 for AA/small, 3.0 for
AA/large, 7.0 for AAA/small, 4.5 for AAA/large. -/
noncomputable def wcagThreshold : WCAGLevel → TextSize → ℝ
  | .AA, .small => 4.5
  | .AA, .large => 3
  | .AAA, .small => 7
  | .AAA, .large => 4.5

/-- Row-major 3×3 matrix of rationals. -/
structure Mat3 where
  a00 : ℚ
  a01 : ℚ
  a02 : ℚ
  a10 : ℚ
  a11 : ℚ
  a12 : ℚ
  a20 : ℚ
  a21 : ℚ
  a22 : ℚ

/-- types.ts `ColorBlindnessType`. -/
inductive ColorBlindnessType where
  | protanopia
  | deuteranopia
  | tritanopia
deriving DecidableEq

/-- The `matrices` table of helpers.ts `simulateColorBlindness` (lines 150-166). -/
def matrices : ColorBlindnessType → Mat3
  | .protanopia => ⟨0.567, 0.433, 0, 0.558, 0.442, 0, 0, 0.242, 0.758⟩
  | .deuteranopia => ⟨0.625, 0.375, 0, 0.7, 0.3, 0, 0, 0.3, 0.7⟩
  | .tritanopia => ⟨0.95, 0.05, 0, 0, 0.433, 0.567, 0, 0.475, 0.525⟩

/-- helpers.ts `simulateColorBlindness` (lines 146-174): multiply the RGB row
vector by the selected matrix and round each output channel. -/
def simulateColorBlindness (r g b : ℚ) (t : ColorBlindnessType) : ℤ × ℤ × ℤ :=
  let m := matrices t
  (jsRound (r * m.a00 + g * m.a01 + b * m.a02),
    jsRound (r * m.a10 + g * m.a11 + b * m.a12),
    jsRound (r * m.a20 + g * m.a21 + b * m.a22))

end CodaHsluv

namespace CodaHsluv

lemma jsMin_eq_min (a b : ℚ) : jsMin a b = min a b := (min_def a b).symm

lemma jsAbs_eq_abs (q : ℚ) : jsAbs q = |q| := by
  rw [jsAbs]
  rcases lt_or_ge q 0 with h | h
  · rw [if_pos h, abs_of_neg h]
  · rw [if_neg (not_lt.mpr h), abs_of_nonneg h]

lemma roundTo2_zero : roundTo2 0 = 0 := by
  simp only [roundTo2, jsRound]
  norm_num

lemma roundTo2_nonneg {q : ℚ} (h : 0 ≤ q) : 0 ≤ roundTo2 q := by
  have h2 : (0 : ℤ) ≤ jsRound (q * 100) := by
    rw [jsRound, Int.le_floor]
    push_cast
    linarith
  rw [roundTo2]
  positivity

lemma roundTo2_le_one {q : ℚ} (h : q ≤ 1) : roundTo2 q ≤ 1 := by
  have h2 : jsRound (q * 100) ≤ 100 := by
    have hf : (jsRound (q * 100) : ℚ) ≤ q * 100 + 1/2 := Int.floor_le _
    by_contra hc
    push_neg at hc
    have : ((101 : ℤ) : ℚ) ≤ (jsRound (q * 100) : ℚ) := by exact_mod_cast hc
    push_cast at this
    linarith
  rw [roundTo2, div_le_one (by norm_num)]
  exact_mod_cast h2

lemma jsRound_natCast (n : ℕ) : jsRound (n : ℚ) = (n : ℤ) := by
  rw [jsRound, Int.floor_eq_iff]
  constructor
  · push_cast
    linarith
  · push_cast
    linarith

lemma jsRound_mem_Icc {q : ℚ} (h0 : 0 ≤ q) (h1 : q ≤ 255) :
    0 ≤ jsRound q ∧ jsRound q ≤ 255 := by
  constructor
  · rw [jsRound, Int.le_floor]
    push_cast
    linarith
  · have : jsRound q < 256 := by
      rw [jsRound, Int.floor_lt]
      push_cast
      linarith
    omega

/-- Claim C4: for every RGB input with channels in [0,255], `rgbToCmyk` returns
four values in [0,1] among whose first three at least one is 0; when all
channels are 0 it short-circuits to exactly (0,0,0,1), and outside that case
the minimum `k` is distinct from 1, so the `(1-k)` division is never taken at
`k = 1`. -/
theorem rgbToCmyk_invariants (r g b : ℚ)
    (hr0 : 0 ≤ r) (hr1 : r ≤ 255) (hg0 : 0 ≤ g) (hg1 : g ≤ 255)
    (hb0 : 0 ≤ b) (hb1 : b ≤ 255) :
    (0 ≤ (rgbToCmyk r g b).c ∧ (rgbToCmyk r g b).c ≤ 1) ∧
    (0 ≤ (rgbToCmyk r g b).m ∧ (rgbToCmyk r g b).m ≤ 1) ∧
    (0 ≤ (rgbToCmyk r g b).y ∧ (rgbToCmyk r g b).y ≤ 1) ∧
    (0 ≤ (rgbToCmyk r g b).k ∧ (rgbToCmyk r g b).k ≤ 1) ∧
    ((rgbToCmyk r g b).c = 0 ∨ (rgbToCmyk r g b).m = 0 ∨ (rgbToCmyk r g b).y = 0) ∧
    (r = 0 ∧ g = 0 ∧ b = 0 → rgbToCmyk r g b = ⟨0, 0, 0, 1⟩) ∧
    (¬(r = 0 ∧ g = 0 ∧ b = 0) →
      jsMin (1 - r / 255) (jsMin (1 - g / 255) (1 - b / 255)) ≠ 1) := by
  have hc1 : 1 - r / 255 ≤ 1 := by linarith
  have hm1 : 1 - g / 255 ≤ 1 := by linarith
  have hy1 : 1 - b / 255 ≤ 1 := by linarith
  have hc0 : 0 ≤ 1 - r / 255 := by linarith
  have hm0 : 0 ≤ 1 - g / 255 := by linarith
  have hy0 : 0 ≤ 1 - b / 255 := by linarith
  set c := 1 - r / 255 with hc
  set m := 1 - g / 255 with hm
  set y := 1 - b / 255 with hy
  set k := jsMin c (jsMin m y) with hkdef
  have hkmin : k = min c (min m y) := by rw [hkdef, jsMin_eq_min, jsMin_eq_min]
  have hkc : k ≤ c := by rw [hkmin]; exact min_le_left _ _
  have hkm : k ≤ m := le_trans (by rw [hkmin]; exact min_le_right _ _) (min_le_left _ _)
  have hky : k ≤ y := le_trans (by rw [hkmin]; exact min_le_right _ _) (min_le_right _ _)
  have hk0 : 0 ≤ k := by rw [hkmin]; exact le_min hc0 (le_min hm0 hy0)
  have hk1 : k ≤ 1 := le_trans hkc hc1
  have hiff : k = 1 ↔ (r = 0 ∧ g = 0 ∧ b = 0) := by
    constructor
    · intro h
      have h1c : (1 : ℚ) ≤ c := h ▸ hkc
      have h1m : (1 : ℚ) ≤ m := h ▸ hkm
      have h1y : (1 : ℚ) ≤ y := h ▸ hky
      rw [hc] at h1c
      rw [hm] at h1m
      rw [hy] at h1y
      refine ⟨by linarith, by linarith, by linarith⟩
    · rintro ⟨rfl, rfl, rfl⟩
      rw [hkmin, hc, hm, hy]
      norm_num
  have hmain : rgbToCmyk r g b =
      if k = 1 then ⟨0, 0, 0, 1⟩
      else ⟨roundTo2 ((c - k) / (1 - k)), roundTo2 ((m - k) / (1 - k)),
        roundTo2 ((y - k) / (1 - k)), roundTo2 k⟩ := rfl
  by_cases hk : k = 1
  · rw [hmain, if_pos hk]
    refine ⟨⟨le_refl _, by norm_num⟩, ⟨le_refl _, by norm_num⟩, ⟨le_refl _, by norm_num⟩,
      ⟨by norm_num, le_refl _⟩, Or.inl rfl, fun _ => rfl, fun hne => absurd (hiff.mp hk) hne⟩
  · rw [hmain, if_neg hk]
    have hklt : k < 1 := lt_of_le_of_ne hk1 hk
    have hden : 0 < 1 - k := by linarith
    have range : ∀ v : ℚ, k ≤ v → v ≤ 1 →
        0 ≤ roundTo2 ((v - k) / (1 - k)) ∧ roundTo2 ((v - k) / (1 - k)) ≤ 1 := by
      intro v hv1 hv2
      constructor
      · exact roundTo2_nonneg (div_nonneg (by linarith) (by linarith))
      · exact roundTo2_le_one ((div_le_one hden).mpr (by linarith))
    have hargmin : k = c ∨ k = m ∨ k = y := by
      rw [hkmin]
      rcases min_cases c (min m y) with ⟨h1, _⟩ | ⟨h1, _⟩
      · exact Or.inl h1
      · rcases min_cases m y with ⟨h2, _⟩ | ⟨h2, _⟩
        · exact Or.inr (Or.inl (h1.trans h2))
        · exact Or.inr (Or.inr (h1.trans h2))
    refine ⟨range c hkc hc1, range m hkm hm1, range y hky hy1,
      ⟨roundTo2_nonneg hk0, roundTo2_le_one hk1⟩, ?_, ?_, fun _ => hk⟩
    · rcases hargmin with h | h | h
      · exact Or.inl (by rw [← h, sub_self, zero_div, roundTo2_zero])
      · exact Or.inr (Or.inl (by rw [← h, sub_self, zero_div, roundTo2_zero]))
      · exact Or.inr (Or.inr (by rw [← h, sub_self, zero_div, roundTo2_zero]))
    · rintro ⟨rfl, rfl, rfl⟩
      exact absurd (hiff.mpr ⟨rfl, rfl, rfl⟩) hk

/-- Witness for C4 at the full-black input (0,0,0). -/
theorem rgbToCmyk_invariants_witness :
    (0 ≤ (rgbToCmyk 0 0 0).c ∧ (rgbToCmyk 0 0 0).c ≤ 1) ∧
    (0 ≤ (rgbToCmyk 0 0 0).m ∧ (rgbToCmyk 0 0 0).m ≤ 1) ∧
    (0 ≤ (rgbToCmyk 0 0 0).y ∧ (rgbToCmyk 0 0 0).y ≤ 1) ∧
    (0 ≤ (rgbToCmyk 0 0 0).k ∧ (rgbToCmyk 0 0 0).k ≤ 1) ∧
    ((rgbToCmyk 0 0 0).c = 0 ∨ (rgbToCmyk 0 0 0).m = 0 ∨ (rgbToCmyk 0 0 0).y = 0) ∧
    ((0 : ℚ) = 0 ∧ (0 : ℚ) = 0 ∧ (0 : ℚ) = 0 → rgbToCmyk 0 0 0 = ⟨0, 0, 0, 1⟩) ∧
    (¬((0 : ℚ) = 0 ∧ (0 : ℚ) = 0 ∧ (0 : ℚ) = 0) →
      jsMin (1 - 0 / 255) (jsMin (1 - 0 / 255) (1 - 0 / 255)) ≠ 1) :=
  rgbToCmyk_invariants 0 0 0 (by norm_num) (by norm_num) (by norm_num) (by norm_num)
    (by norm_num) (by norm_num)

/-- Claim C3, counterexample: the device color (64,65,65) converts to CMYK
(0.02, 0, 0, 0.75) and back to (62,64,64); the red channel moves by 2, which
exceeds the claimed tolerance of 1. -/
theorem cmyk_roundTrip_counterexample :
    cmykToRgb (rgbToCmyk 64 65 65).c (rgbToCmyk 64 65 65).m (rgbToCmyk 64 65 65).y
        (rgbToCmyk 64 65 65).k = ⟨62, 64, 64⟩ ∧ ¬ (((62 : ℤ) - 64).natAbs ≤ 1) := by
  have h1 : rgbToCmyk 64 65 65 = ⟨1/50, 0, 0, 3/4⟩ := by
    simp only [rgbToCmyk, jsMin, roundTo2, jsRound]
    norm_num
  rw [h1]
  constructor
  · simp only [cmykToRgb, jsRound]
    norm_num
  · norm_num

set_option maxRecDepth 40000 in
set_option maxHeartbeats 4000000 in
lemma cmykCheck_eq_true : cmykCheck = true := by decide

lemma cmykCheck_spec (M v : ℕ) (hM : M < 256) (hv : v < M + 1) (hMne : M ≠ 0) :
    (cmykBackNat v M - v).natAbs ≤ 2 := by
  have h := cmykCheck_eq_true
  simp only [cmykCheck, List.all_eq_true, List.mem_range] at h
  have h2 := h M hM v hv
  simp only [Bool.or_eq_true, decide_eq_true_eq] at h2
  rcases h2 with h0 | h2
  · exact absurd h0 hMne
  · exact h2

lemma roundTo2_natSub_div (v M : ℕ) (h1 : 1 ≤ M) (hv : v ≤ M) :
    roundTo2 (((M : ℚ) - v) / M) = (((200 * (M - v) + M) / (2 * M) : ℕ) : ℚ) / 100 := by
  have hM0 : (0 : ℚ) < (M : ℚ) := by exact_mod_cast h1
  rw [roundTo2, jsRound]
  have harg : ((M : ℚ) - v) / M * 100 + 1/2 =
      ((((200 * (M - v) + M : ℕ) : ℤ) : ℚ) / ((2 * M : ℕ) : ℚ)) := by
    push_cast [Nat.cast_sub hv]
    field_simp
    ring
  rw [harg, Rat.floor_intCast_div_natCast]
  congr 1

lemma roundTo2_k_div (M : ℕ) (hM : M ≤ 255) :
    roundTo2 (1 - (M : ℚ) / 255) = (((200 * (255 - M) + 255) / 510 : ℕ) : ℚ) / 100 := by
  rw [roundTo2, jsRound]
  have harg : (1 - (M : ℚ) / 255) * 100 + 1/2 =
      ((((200 * (255 - M) + 255 : ℕ) : ℤ) : ℚ) / ((510 : ℕ) : ℚ)) := by
    push_cast [Nat.cast_sub hM]
    field_simp
    ring
  rw [harg, Rat.floor_intCast_div_natCast]
  congr 1

lemma jsRound_back_eq (A B : ℕ) :
    jsRound (255 * (1 - (A : ℚ) / 100) * (1 - (B : ℚ) / 100)) =
      (510 * (100 - (A : ℤ)) * (100 - (B : ℤ)) + 10000) / 20000 := by
  rw [jsRound]
  have harg : 255 * (1 - (A : ℚ) / 100) * (1 - (B : ℚ) / 100) + 1/2 =
      (((510 * (100 - (A : ℤ)) * (100 - (B : ℤ)) + 10000 : ℤ) : ℚ) / ((20000 : ℕ) : ℚ)) := by
    push_cast
    field_simp
    ring
  rw [harg, Rat.floor_intCast_div_natCast]
  norm_num

lemma min_one_sub_div (x y : ℚ) :
    min (1 - x / 255) (1 - y / 255) = 1 - (max x y) / 255 := by
  rcases le_total x y with h | h
  · rw [max_eq_right h, min_eq_right (by linarith)]
  · rw [max_eq_left h, min_eq_left (by linarith)]

/-- Claim C3 (amended): for every integer RGB triple with channels in [0,255],
`cmykToRgb` after `rgbToCmyk` reproduces each channel within 2 integer units
(the bound 1 claimed originally fails, see `cmyk_roundTrip_counterexample`;
2 is tight). -/
theorem cmyk_roundTrip_within_two (r g b : ℕ)
    (hr : r ≤ 255) (hg : g ≤ 255) (hb : b ≤ 255) :
    ((cmykToRgb (rgbToCmyk r g b).c (rgbToCmyk r g b).m (rgbToCmyk r g b).y
        (rgbToCmyk r g b).k).r - r).natAbs ≤ 2 ∧
    ((cmykToRgb (rgbToCmyk r g b).c (rgbToCmyk r g b).m (rgbToCmyk r g b).y
        (rgbToCmyk r g b).k).g - g).natAbs ≤ 2 ∧
    ((cmykToRgb (rgbToCmyk r g b).c (rgbToCmyk r g b).m (rgbToCmyk r g b).y
        (rgbToCmyk r g b).k).b - b).natAbs ≤ 2 := by
  rcases Nat.eq_zero_or_pos (max r (max g b)) with hM0 | hMpos
  · have hr0 : r = 0 := Nat.le_zero.mp (hM0 ▸ le_max_left _ _)
    have hg0 : g = 0 := Nat.le_zero.mp (hM0 ▸ (le_max_left g b).trans (le_max_right r _))
    have hb0 : b = 0 := Nat.le_zero.mp (hM0 ▸ (le_max_right g b).trans (le_max_right r _))
    subst hr0; subst hg0; subst hb0
    have h1 : rgbToCmyk (0 : ℕ) (0 : ℕ) (0 : ℕ) = ⟨0, 0, 0, 1⟩ := by
      simp only [rgbToCmyk, jsMin]
      norm_num
    rw [h1]
    simp only [cmykToRgb, jsRound]
    norm_num
  · set M := max r (max g b) with hMdef
    have hM1 : 1 ≤ M := hMpos
    have hM255 : M ≤ 255 := by
      rw [hMdef]
      exact max_le hr (max_le hg hb)
    have hMq : (0 : ℚ) < (M : ℚ) := by exact_mod_cast hMpos
    have hminEq : jsMin (1 - (r : ℚ) / 255) (jsMin (1 - (g : ℚ) / 255) (1 - (b : ℚ) / 255)) =
        1 - (M : ℚ) / 255 := by
      rw [jsMin_eq_min, jsMin_eq_min, min_one_sub_div, min_one_sub_div]
      rw [hMdef]
      push_cast
      ring
    have hkne : (1 : ℚ) - (M : ℚ) / 255 ≠ 1 := by
      intro hcon
      have : (M : ℚ) / 255 = 0 := by linarith
      rw [div_eq_zero_iff] at this
      rcases this with h | h
      · exact absurd h (ne_of_gt hMq)
      · norm_num at h
    have harith : ∀ v : ℚ,
        (1 - v / 255 - (1 - (M : ℚ) / 255)) / (1 - (1 - (M : ℚ) / 255)) = ((M : ℚ) - v) / M := by
      intro v
      have hMne : (M : ℚ) ≠ 0 := ne_of_gt hMq
      field_simp
    have hrgb : rgbToCmyk (r : ℚ) (g : ℚ) (b : ℚ) =
        ⟨roundTo2 (((M : ℚ) - r) / M), roundTo2 (((M : ℚ) - g) / M),
          roundTo2 (((M : ℚ) - b) / M), roundTo2 (1 - (M : ℚ) / 255)⟩ := by
      show (if jsMin (1 - (r : ℚ) / 255) (jsMin (1 - (g : ℚ) / 255) (1 - (b : ℚ) / 255)) = 1
        then (⟨0, 0, 0, 1⟩ : CMYKColor)
        else _) = _
      rw [hminEq, if_neg hkne]
      simp only [harith]
    rw [hrgb]
    have hchan : ∀ v : ℕ, v ≤ M →
        ((jsRound (255 * (1 - roundTo2 (((M : ℚ) - v) / M)) *
          (1 - roundTo2 (1 - (M : ℚ) / 255)))) - v).natAbs ≤ 2 := by
      intro v hv
      rw [roundTo2_natSub_div v M hM1 hv, roundTo2_k_div M hM255, jsRound_back_eq]
      have := cmykCheck_spec M v (by omega) (by omega) (by omega)
      rw [cmykBackNat] at this
      exact this
    exact ⟨hchan r (le_max_left _ _),
      hchan g ((le_max_left g b).trans (le_max_right r _)),
      hchan b ((le_max_right g b).trans (le_max_right r _))⟩

/-- Witness for C3 (amended) at the input (64,65,65), where the deviation 2
is attained. -/
theorem cmyk_roundTrip_within_two_witness :
    ((cmykToRgb (rgbToCmyk 64 65 65).c (rgbToCmyk 64 65 65).m (rgbToCmyk 64 65 65).y
        (rgbToCmyk 64 65 65).k).r - (64 : ℕ)).natAbs ≤ 2 ∧
    ((cmykToRgb (rgbToCmyk 64 65 65).c (rgbToCmyk 64 65 65).m (rgbToCmyk 64 65 65).y
        (rgbToCmyk 64 65 65).k).g - (65 : ℕ)).natAbs ≤ 2 ∧
    ((cmykToRgb (rgbToCmyk 64 65 65).c (rgbToCmyk 64 65 65).m (rgbToCmyk 64 65 65).y
        (rgbToCmyk 64 65 65).k).b - (65 : ℕ)).natAbs ≤ 2 :=
  cmyk_roundTrip_within_two 64 65 65 (by norm_num) (by norm_num) (by norm_num)

end CodaHsluv

namespace CodaHsluv

lemma isValidHsluv_iff (h s l : ℚ) :
    isValidHsluv h s l = true ↔
      0 ≤ h ∧ h ≤ 360 ∧ 0 ≤ s ∧ s ≤ 100 ∧ 0 ≤ l ∧ l ≤ 100 := by
  simp [isValidHsluv, ge_iff_le]
  tauto

lemma isValidHpluv_iff (h p l : ℚ) :
    isValidHpluv h p l = true ↔
      0 ≤ h ∧ h ≤ 360 ∧ 0 ≤ p ∧ p ≤ 100 ∧ 0 ≤ l ∧ l ≤ 100 := by
  simp [isValidHpluv, ge_iff_le]
  tauto

/-- Claim C2, counterexample: `HsluvToHex` at hue −10 and `HpluvToHex` at hue
400 throw the validation error instead of normalizing the hue into [0,360). -/
theorem hue_normalization_counterexample :
    hsluvToHexGate (-10) 50 50 =
      Except.error "Invalid HSLuv values. Hue: 0-360, Saturation and Lightness: 0-100." ∧
    hpluvToHexGate 400 50 50 =
      Except.error "Invalid HPLuv values. Hue: 0-360, Percent and Lightness: 0-100." := by
  constructor
  · rw [hsluvToHexGate, if_neg]
    rw [isValidHsluv_iff]
    norm_num
  · rw [hpluvToHexGate, if_neg]
    rw [isValidHpluv_iff]
    norm_num

/-- Claim C2 (amended): `HsluvToHex` and `HpluvToHex` do not normalize hue;
with the other parameters in range, any hue outside [0,360] (negative or
above 360) makes both formulas throw the user-visible validation error, and
any hue inside the closed interval [0,360] is accepted. -/
theorem hue_gates_validate (h s l : ℚ)
    (hs0 : 0 ≤ s) (hs1 : s ≤ 100) (hl0 : 0 ≤ l) (hl1 : l ≤ 100) :
    ((h < 0 ∨ 360 < h) →
      hsluvToHexGate h s l =
        Except.error "Invalid HSLuv values. Hue: 0-360, Saturation and Lightness: 0-100." ∧
      hpluvToHexGate h s l =
        Except.error "Invalid HPLuv values. Hue: 0-360, Percent and Lightness: 0-100.") ∧
    (0 ≤ h → h ≤ 360 →
      hsluvToHexGate h s l = Except.ok () ∧ hpluvToHexGate h s l = Except.ok ()) := by
  constructor
  · intro hout
    constructor
    · rw [hsluvToHexGate, if_neg]
      rw [isValidHsluv_iff]
      rintro ⟨h0, h1, -⟩
      rcases hout with hlt | hgt
      · linarith
      · linarith
    · rw [hpluvToHexGate, if_neg]
      rw [isValidHpluv_iff]
      rintro ⟨h0, h1, -⟩
      rcases hout with hlt | hgt
      · linarith
      · linarith
  · intro h0 h1
    exact ⟨by rw [hsluvToHexGate,
        if_pos ((isValidHsluv_iff h s l).mpr ⟨h0, h1, hs0, hs1, hl0, hl1⟩)],
      by rw [hpluvToHexGate,
        if_pos ((isValidHpluv_iff h s l).mpr ⟨h0, h1, hs0, hs1, hl0, hl1⟩)]⟩

/-- Witness for C2 (amended) at hue −10, saturation 50, lightness 50. -/
theorem hue_gates_validate_witness :
    ((((-10 : ℚ) < 0 ∨ (360 : ℚ) < -10) →
      hsluvToHexGate (-10) 50 50 =
        Except.error "Invalid HSLuv values. Hue: 0-360, Saturation and Lightness: 0-100." ∧
      hpluvToHexGate (-10) 50 50 =
        Except.error "Invalid HPLuv values. Hue: 0-360, Percent and Lightness: 0-100.") ∧
    ((0 : ℚ) ≤ -10 → (-10 : ℚ) ≤ 360 →
      hsluvToHexGate (-10) 50 50 = Except.ok () ∧ hpluvToHexGate (-10) 50 50 = Except.ok ())) :=
  hue_gates_validate (-10) 50 50 (by norm_num) (by norm_num) (by norm_num) (by norm_num)

lemma harmony_eq_dist (h1 h2 : ℚ) :
    (if jsAbs (h1 - h2) > 180 then 360 - jsAbs (h1 - h2) else jsAbs (h1 - h2)) =
      circularHueDist h1 h2 := by
  rw [jsAbs_eq_abs, circularHueDist]
  rcases le_or_lt |h1 - h2| 180 with h | h
  · rw [if_neg (not_lt.mpr h), min_eq_left (by linarith)]
  · rw [if_pos h, min_eq_right (by linarith)]

/-- Claim C5 (amended): on hues in [0,360), `evaluateColorHarmony` computes the
circular hue distance `d = min(|Δh|, 360−|Δh|)` and then checks the ±30°
windows in the fixed order analogous (target 0°), complementary (180°),
triadic (120°), square (90°), returning the first match and otherwise
"discordant"; in the overlap of the triadic and square windows (90 < d < 105,
where 90° is the nearer target) the triadic label wins, unlike a
nearest-target classification.  In particular d = 180 yields Complementary
and d = 0 yields Analogous. -/
theorem evaluateColorHarmony_classification (h1 h2 : ℚ)
    (_h10 : 0 ≤ h1) (_h11 : h1 < 360) (_h20 : 0 ≤ h2) (_h21 : h2 < 360) :
    evaluateColorHarmonyHues h1 h2 =
      (if circularHueDist h1 h2 < 30 then "Analogous (harmonious)"
       else if |circularHueDist h1 h2 - 180| < 30 then "Complementary (high contrast)"
       else if |circularHueDist h1 h2 - 120| < 30 then "Triadic (balanced)"
       else if |circularHueDist h1 h2 - 90| < 30 then "Square (vibrant)"
       else "Discordant (use with caution)") ∧
    (circularHueDist h1 h2 = 180 →
      evaluateColorHarmonyHues h1 h2 = "Complementary (high contrast)") ∧
    (circularHueDist h1 h2 = 0 →
      evaluateColorHarmonyHues h1 h2 = "Analogous (harmonious)") := by
  have hmain : evaluateColorHarmonyHues h1 h2 =
      (if circularHueDist h1 h2 < 30 then "Analogous (harmonious)"
       else if |circularHueDist h1 h2 - 180| < 30 then "Complementary (high contrast)"
       else if |circularHueDist h1 h2 - 120| < 30 then "Triadic (balanced)"
       else if |circularHueDist h1 h2 - 90| < 30 then "Square (vibrant)"
       else "Discordant (use with caution)") := by
    rw [evaluateColorHarmonyHues]
    rw [harmony_eq_dist h1 h2]
    simp only [jsAbs_eq_abs]
  refine ⟨hmain, fun hd => ?_, fun hd => ?_⟩
  · rw [hmain, hd]
    norm_num
  · rw [hmain, hd]
    norm_num

/-- Witness for C5 (amended) at hues 0 and 180. -/
theorem evaluateColorHarmony_classification_witness :
    (evaluateColorHarmonyHues 0 180 =
      (if circularHueDist 0 180 < 30 then "Analogous (harmonious)"
       else if |circularHueDist 0 180 - 180| < 30 then "Complementary (high contrast)"
       else if |circularHueDist 0 180 - 120| < 30 then "Triadic (balanced)"
       else if |circularHueDist 0 180 - 90| < 30 then "Square (vibrant)"
       else "Discordant (use with caution)") ∧
    (circularHueDist 0 180 = 180 →
      evaluateColorHarmonyHues 0 180 = "Complementary (high contrast)") ∧
    (circularHueDist 0 180 = 0 →
      evaluateColorHarmonyHues 0 180 = "Analogous (harmonious)")) :=
  evaluateColorHarmony_classification 0 180 (by norm_num) (by norm_num) (by norm_num)
    (by norm_num)

/-- Claim C5, counterexample: at hue distance 95 the nearest target is 90°
(distance 5, inside the ±30° window) yet the code returns the triadic label,
because the |d−120| < 30 window is checked first; so classification is not by
proximity to the nearest target. -/
theorem harmony_nearest_counterexample :
    evaluateColorHarmonyHues 0 95 = "Triadic (balanced)" ∧
    |circularHueDist 0 95 - 90| < |circularHueDist 0 95 - 120| ∧
    |circularHueDist 0 95 - 90| < 30 ∧
    ("Triadic (balanced)" : String) ≠ "Square (vibrant)" := by
  have hd : circularHueDist 0 95 = 95 := by
    rw [circularHueDist, show |(0 : ℚ) - 95| = 95 by rw [abs_of_nonpos] <;> norm_num]
    norm_num
  refine ⟨?_, ?_, ?_, ?_⟩
  · rw [evaluateColorHarmonyHues]
    norm_num [jsAbs]
  · rw [hd]
    rw [show |(95 : ℚ) - 90| = 5 by rw [abs_of_nonneg] <;> norm_num]
    rw [show |(95 : ℚ) - 120| = 25 by rw [abs_of_nonpos] <;> norm_num]
    norm_num
  · rw [hd, show |(95 : ℚ) - 90| = 5 by rw [abs_of_nonneg] <;> norm_num]
    norm_num
  · decide

lemma jsMod_eq_self {a : ℚ} (h0 : 0 ≤ a) (h1 : a < 360) : jsMod a 360 = a := by
  rw [jsMod]
  have hz : ⌊a / 360⌋ = 0 := by
    rw [Int.floor_eq_zero_iff]
    constructor
    · positivity
    · rw [div_lt_one (by norm_num)]
      linarith
  rw [hz]
  ring

lemma jsMod_sub_360 {a : ℚ} (h0 : 360 ≤ a) (h1 : a < 720) : jsMod a 360 = a - 360 := by
  rw [jsMod]
  have hz : ⌊a / 360⌋ = 1 := by
    rw [Int.floor_eq_iff]
    constructor
    · rw [le_div_iff₀ (by norm_num : (0:ℚ) < 360)]
      push_cast
      linarith
    · rw [div_lt_iff₀ (by norm_num : (0:ℚ) < 360)]
      push_cast
      linarith
  rw [hz]
  ring

lemma pairwise_three {P : ℚ → ℚ → Prop} {a b c : ℚ}
    (hab : P a b) (hac : P a c) (hbc : P b c) : List.Pairwise P [a, b, c] := by
  refine .cons ?_ (.cons ?_ (.cons ?_ .nil))
  · intro y hy
    rcases List.mem_cons.mp hy with rfl | hy2
    · exact hab
    · rcases List.mem_cons.mp hy2 with rfl | hy3
      · exact hac
      · exact absurd hy3 (List.not_mem_nil y)
  · intro y hy
    rcases List.mem_cons.mp hy with rfl | hy2
    · exact hbc
    · exact absurd hy2 (List.not_mem_nil y)
  · intro y hy
    exact absurd hy (List.not_mem_nil y)

/-- Claim C6: for a base hue in [0,360), the triadic scheme has exactly 3 hues
whose pairwise circular distances are all 120°, and the tetradic scheme has
exactly 4 hues at offsets 0°, 60°, 180° and 240° from the base hue
(mod 360). -/
theorem schemes_hue_structure (h : ℚ) (h0 : 0 ≤ h) (h1 : h < 360) :
    (triadicSchemeHues h).length = 3 ∧
    (triadicSchemeHues h).Pairwise (fun x y => circularHueDist x y = 120) ∧
    (tetradicSchemeHues h).length = 4 ∧
    tetradicSchemeHues h =
      [jsMod (h + 0) 360, jsMod (h + 60) 360, jsMod (h + 180) 360, jsMod (h + 240) 360] := by
  have e1 : rotateHue h 120 = if h < 240 then h + 120 else h + 120 - 360 := by
    rw [rotateHue]
    rcases lt_or_ge h 240 with hc | hc
    · rw [if_pos hc, jsMod_eq_self (by linarith) (by linarith)]
    · rw [if_neg (not_lt.mpr hc), jsMod_sub_360 (by linarith) (by linarith)]
  refine ⟨rfl, ?_, rfl, ?_⟩
  · rw [triadicSchemeHues]
    rcases lt_or_ge h 240 with hc | hc
    · rw [e1, if_pos hc]
      have e2 : rotateHue (h + 120) 120 = if h < 120 then h + 240 else h + 240 - 360 := by
        rw [rotateHue, show h + 120 + 120 = h + 240 from by ring]
        rcases lt_or_ge h 120 with hc2 | hc2
        · rw [if_pos hc2, jsMod_eq_self (by linarith) (by linarith)]
        · rw [if_neg (not_lt.mpr hc2), jsMod_sub_360 (by linarith) (by linarith)]
      rcases lt_or_ge h 120 with hc2 | hc2
      · rw [e2, if_pos hc2]
        refine pairwise_three ?_ ?_ ?_
        · rw [circularHueDist, show h - (h + 120) = -120 from by ring]
          norm_num
        · rw [circularHueDist, show h - (h + 240) = -240 from by ring]
          norm_num
        · rw [circularHueDist, show h + 120 - (h + 240) = -120 from by ring]
          norm_num
      · rw [e2, if_neg (not_lt.mpr hc2)]
        refine pairwise_three ?_ ?_ ?_
        · rw [circularHueDist, show h - (h + 120) = -120 from by ring]
          norm_num
        · rw [circularHueDist, show h - (h + 240 - 360) = 120 from by ring]
          norm_num
        · rw [circularHueDist, show h + 120 - (h + 240 - 360) = 240 from by ring]
          norm_num
    · rw [e1, if_neg (not_lt.mpr hc)]
      have e2 : rotateHue (h + 120 - 360) 120 = h - 120 := by
        rw [rotateHue, show h + 120 - 360 + 120 = h - 120 from by ring,
          jsMod_eq_self (by linarith) (by linarith)]
      rw [e2]
      refine pairwise_three ?_ ?_ ?_
      · rw [circularHueDist, show h - (h + 120 - 360) = 240 from by ring]
        norm_num
      · rw [circularHueDist, show h - (h - 120) = 120 from by ring]
        norm_num
      · rw [circularHueDist, show h + 120 - 360 - (h - 120) = -120 from by ring]
        norm_num
  · rw [tetradicSchemeHues, add_zero, jsMod_eq_self h0 h1]
    rfl

/-- Witness for C6 at base hue 10. -/
theorem schemes_hue_structure_witness :
    (triadicSchemeHues 10).length = 3 ∧
    (triadicSchemeHues 10).Pairwise (fun x y => circularHueDist x y = 120) ∧
    (tetradicSchemeHues 10).length = 4 ∧
    tetradicSchemeHues 10 =
      [jsMod (10 + 0) 360, jsMod (10 + 60) 360, jsMod (10 + 180) 360, jsMod (10 + 240) 360] :=
  schemes_hue_structure 10 (by norm_num) (by norm_num)

end CodaHsluv

namespace CodaHsluv

set_option maxRecDepth 4000 in
lemma padToTwo_toString16 :
    ∀ n : ℕ, n < 256 → padToTwo (jsToString16 (n : ℤ)) = [hexCharL (n / 16), hexCharL (n % 16)] := by
  decide

lemma hexCharL_hexVal {c : Char} (h : isLowerHexDigit c = true) : hexCharL (hexVal c) = c := by
  rw [isLowerHexDigit, Bool.or_eq_true, decide_eq_true_eq, decide_eq_true_eq] at h
  rcases h with ⟨h1, h2⟩ | ⟨h1, h2⟩
  · rw [hexVal, if_pos ⟨h1, h2⟩, hexCharL, if_pos (by omega),
      show 48 + (c.toNat - 48) = c.toNat from by omega, Char.ofNat_toNat]
  · rw [hexVal, if_neg (by omega), if_pos ⟨h1, h2⟩, hexCharL, if_neg (by omega),
      show 87 + (c.toNat - 87) = c.toNat from by omega, Char.ofNat_toNat]

lemma hexVal_lt {c : Char} (h : isHexDigitChar c = true) : hexVal c < 16 := by
  rw [isHexDigitChar, Bool.or_eq_true, Bool.or_eq_true,
    decide_eq_true_eq, decide_eq_true_eq, decide_eq_true_eq] at h
  rw [hexVal]
  rcases h with (⟨h1, h2⟩ | ⟨h1, h2⟩) | ⟨h1, h2⟩
  · rw [if_pos ⟨h1, h2⟩]; omega
  · rw [if_neg (by omega), if_pos ⟨h1, h2⟩]; omega
  · rw [if_neg (by omega), if_neg (by omega), if_pos ⟨h1, h2⟩]; omega

lemma lower_imp_hexDigit {c : Char} (h : isLowerHexDigit c = true) : isHexDigitChar c = true := by
  rw [isLowerHexDigit, Bool.or_eq_true] at h
  rw [isHexDigitChar, Bool.or_eq_true, Bool.or_eq_true]
  exact Or.inl h

lemma rgbToHex_natCasts (a b c : ℕ) :
    rgbToHex [(a : ℚ), (b : ℚ), (c : ℚ)] =
      ⟨'#' :: (padToTwo (jsToString16 (a : ℤ)) ++
        (padToTwo (jsToString16 (b : ℤ)) ++ padToTwo (jsToString16 (c : ℤ))))⟩ := by
  simp [rgbToHex, jsRound_natCast]

lemma length_six_shape {l : List Char} (h : l.length = 6) :
    ∃ a b c d e f, l = [a, b, c, d, e, f] := by
  rcases l with _ | ⟨a, l⟩
  · simp at h
  rcases l with _ | ⟨b, l⟩
  · simp at h
  rcases l with _ | ⟨c, l⟩
  · simp at h
  rcases l with _ | ⟨d, l⟩
  · simp at h
  rcases l with _ | ⟨e, l⟩
  · simp at h
  rcases l with _ | ⟨f, l⟩
  · simp at h
  rcases l with _ | ⟨g, l⟩
  · exact ⟨a, b, c, d, e, f, rfl⟩
  · simp only [List.length_cons] at h
    omega

lemma valid_structure {s : String} (h : isValidHexColor s = true) :
    ∃ c₁ c₂ c₃ c₄ c₅ c₆,
      s.data = ['#', c₁, c₂, c₃, c₄, c₅, c₆] ∧
      isHexDigitChar c₁ = true ∧ isHexDigitChar c₂ = true ∧ isHexDigitChar c₃ = true ∧
      isHexDigitChar c₄ = true ∧ isHexDigitChar c₅ = true ∧ isHexDigitChar c₆ = true := by
  rw [isValidHexColor] at h
  rcases hs : s.data with _ | ⟨c0, rest⟩
  · rw [hs] at h
    simp at h
  · rw [hs] at h
    simp only [Bool.and_eq_true, beq_iff_eq] at h
    obtain ⟨⟨hc0, hlen⟩, hall⟩ := h
    obtain ⟨c₁, c₂, c₃, c₄, c₅, c₆, rfl⟩ := length_six_shape (by exact_mod_cast hlen)
    subst hc0
    simp only [List.all_cons, List.all_nil, Bool.and_eq_true, and_true] at hall
    exact ⟨c₁, c₂, c₃, c₄, c₅, c₆, rfl, hall.1, hall.2.1, hall.2.2.1, hall.2.2.2.1,
      hall.2.2.2.2.1, hall.2.2.2.2.2⟩

lemma lowercase_structure {s : String} (h : isLowercaseHexColor s = true) :
    ∃ c₁ c₂ c₃ c₄ c₅ c₆,
      s.data = ['#', c₁, c₂, c₃, c₄, c₅, c₆] ∧
      isLowerHexDigit c₁ = true ∧ isLowerHexDigit c₂ = true ∧ isLowerHexDigit c₃ = true ∧
      isLowerHexDigit c₄ = true ∧ isLowerHexDigit c₅ = true ∧ isLowerHexDigit c₆ = true := by
  rw [isLowercaseHexColor] at h
  rcases hs : s.data with _ | ⟨c0, rest⟩
  · rw [hs] at h
    simp at h
  · rw [hs] at h
    simp only [Bool.and_eq_true, beq_iff_eq] at h
    obtain ⟨⟨hc0, hlen⟩, hall⟩ := h
    obtain ⟨c₁, c₂, c₃, c₄, c₅, c₆, rfl⟩ := length_six_shape (by exact_mod_cast hlen)
    subst hc0
    simp only [List.all_cons, List.all_nil, Bool.and_eq_true, and_true] at hall
    exact ⟨c₁, c₂, c₃, c₄, c₅, c₆, rfl, hall.1, hall.2.1, hall.2.2.1, hall.2.2.2.1,
      hall.2.2.2.2.1, hall.2.2.2.2.2⟩

lemma hexToRgb_of_valid {s : String} {c₁ c₂ c₃ c₄ c₅ c₆ : Char}
    (hs : s.data = ['#', c₁, c₂, c₃, c₄, c₅, c₆]) :
    hexToRgb s = [((16 * hexVal c₁ + hexVal c₂ : ℕ) : ℚ),
      ((16 * hexVal c₃ + hexVal c₄ : ℕ) : ℚ), ((16 * hexVal c₅ + hexVal c₆ : ℕ) : ℚ)] := by
  rw [hexToRgb, hs]
  rfl

lemma rgbToHex_hexToRgb_lower {s : String} (h : isLowercaseHexColor s = true) :
    rgbToHex (hexToRgb s) = s := by
  obtain ⟨c₁, c₂, c₃, c₄, c₅, c₆, hs, h1, h2, h3, h4, h5, h6⟩ := lowercase_structure h
  have b1 := hexVal_lt (lower_imp_hexDigit h1)
  have b2 := hexVal_lt (lower_imp_hexDigit h2)
  have b3 := hexVal_lt (lower_imp_hexDigit h3)
  have b4 := hexVal_lt (lower_imp_hexDigit h4)
  have b5 := hexVal_lt (lower_imp_hexDigit h5)
  have b6 := hexVal_lt (lower_imp_hexDigit h6)
  rw [hexToRgb_of_valid hs, rgbToHex_natCasts,
    padToTwo_toString16 _ (by omega), padToTwo_toString16 _ (by omega),
    padToTwo_toString16 _ (by omega),
    show (16 * hexVal c₁ + hexVal c₂) / 16 = hexVal c₁ from by omega,
    show (16 * hexVal c₁ + hexVal c₂) % 16 = hexVal c₂ from by omega,
    show (16 * hexVal c₃ + hexVal c₄) / 16 = hexVal c₃ from by omega,
    show (16 * hexVal c₃ + hexVal c₄) % 16 = hexVal c₄ from by omega,
    show (16 * hexVal c₅ + hexVal c₆) / 16 = hexVal c₅ from by omega,
    show (16 * hexVal c₅ + hexVal c₆) % 16 = hexVal c₆ from by omega,
    hexCharL_hexVal h1, hexCharL_hexVal h2, hexCharL_hexVal h3,
    hexCharL_hexVal h4, hexCharL_hexVal h5, hexCharL_hexVal h6]
  cases s with
  | mk data =>
    simp only at hs
    rw [hs]
    rfl

lemma linearGradient_length (a b : String) (steps : ℕ) :
    (LinearGradient a b steps).length = steps := by
  rw [LinearGradient]
  simp

lemma linearGradient_head {a : String} (b : String) (k : ℕ)
    (ha : isValidHexColor a = true) :
    (LinearGradient a b (k + 2)).head? = some (rgbToHex (hexToRgb a)) := by
  obtain ⟨c₁, c₂, c₃, c₄, c₅, c₆, hs, -⟩ := valid_structure ha
  rw [LinearGradient, hexToRgb_of_valid hs]
  rw [show k + 2 = (k + 1) + 1 from rfl, List.range_succ_eq_map]
  simp only [List.map_cons, List.head?_cons, List.getD_cons_zero, List.getD_cons_succ]
  simp only [Nat.cast_zero, zero_div, mul_zero, add_zero, sub_zero, mul_one,
    jsRound_natCast, Int.cast_natCast]

lemma linearGradient_last (a : String) {b : String} (k : ℕ)
    (hb : isValidHexColor b = true) :
    (LinearGradient a b (k + 2)).getLast? = some (rgbToHex (hexToRgb b)) := by
  obtain ⟨c₁, c₂, c₃, c₄, c₅, c₆, hs, -⟩ := valid_structure hb
  rw [LinearGradient, hexToRgb_of_valid hs]
  rw [show k + 2 = (k + 1) + 1 from rfl, List.range_succ, List.map_append, List.map_cons,
    List.map_nil, List.getLast?_concat]
  simp only [List.getD_cons_zero, List.getD_cons_succ]
  have hratio : ((k + 1 : ℕ) : ℚ) / (((k + 1 + 1 : ℕ) : ℚ) - 1) = 1 := by
    rw [show (((k + 1 + 1 : ℕ) : ℚ)) - 1 = ((k + 1 : ℕ) : ℚ) from by push_cast; ring]
    exact div_self (by exact_mod_cast Nat.succ_ne_zero k)
  rw [hratio]
  simp only [sub_self, mul_zero, zero_add, mul_one, jsRound_natCast, Int.cast_natCast]

/-- Claim C9 (amended): for valid hex colors and 2 ≤ steps ≤ 100, the gradient
has exactly `steps` elements; its first element is the `rgbToHex` re-encoding
of `a`'s channels and its last the re-encoding of `b`'s channels — exact
channel values with no rounding drift, but printed with lowercase hex digits,
so they equal `a` and `b` as strings exactly when `a` and `b` are written in
lowercase (see `linearGradient_case_counterexample` for uppercase input). -/
theorem linearGradient_endpoints (a b : String) (steps : ℕ)
    (ha : isValidHexColor a = true) (hb : isValidHexColor b = true)
    (h2 : 2 ≤ steps) (_h100 : steps ≤ 100) :
    (LinearGradient a b steps).length = steps ∧
    (LinearGradient a b steps).head? = some (rgbToHex (hexToRgb a)) ∧
    (LinearGradient a b steps).getLast? = some (rgbToHex (hexToRgb b)) ∧
    (isLowercaseHexColor a = true → (LinearGradient a b steps).head? = some a) ∧
    (isLowercaseHexColor b = true → (LinearGradient a b steps).getLast? = some b) := by
  obtain ⟨k, rfl⟩ : ∃ k, steps = k + 2 := ⟨steps - 2, by omega⟩
  refine ⟨linearGradient_length a b _, linearGradient_head b k ha, linearGradient_last a k hb,
    fun hl => ?_, fun hl => ?_⟩
  · rw [linearGradient_head b k ha, rgbToHex_hexToRgb_lower hl]
  · rw [linearGradient_last a k hb, rgbToHex_hexToRgb_lower hl]

/-- Witness for C9 (amended) at the lowercase pair (#ff0000, #00ff00) with
2 steps. -/
theorem linearGradient_endpoints_witness :
    (LinearGradient "#ff0000" "#00ff00" 2).length = 2 ∧
    (LinearGradient "#ff0000" "#00ff00" 2).head? =
      some (rgbToHex (hexToRgb "#ff0000")) ∧
    (LinearGradient "#ff0000" "#00ff00" 2).getLast? =
      some (rgbToHex (hexToRgb "#00ff00")) ∧
    (isLowercaseHexColor "#ff0000" = true →
      (LinearGradient "#ff0000" "#00ff00" 2).head? = some "#ff0000") ∧
    (isLowercaseHexColor "#00ff00" = true →
      (LinearGradient "#ff0000" "#00ff00" 2).getLast? = some "#00ff00") :=
  linearGradient_endpoints "#ff0000" "#00ff00" 2 (by decide) (by decide)
    (by norm_num) (by norm_num)

/-- Claim C9, counterexample: for the valid input pair (#FF0000, #00FF00) with
2 steps the first gradient element is the lowercase "#ff0000", not the input
string "#FF0000" — the endpoints are not reproduced exactly as strings. -/
theorem linearGradient_case_counterexample :
    isValidHexColor "#FF0000" = true ∧ isValidHexColor "#00FF00" = true ∧
    (LinearGradient "#FF0000" "#00FF00" 2).head? = some "#ff0000" ∧
    (LinearGradient "#FF0000" "#00FF00" 2).head? ≠ some "#FF0000" := by
  have h1 : (LinearGradient "#FF0000" "#00FF00" 2).head? =
      some (rgbToHex (hexToRgb "#FF0000")) := linearGradient_head "#00FF00" 0 (by decide)
  have h2 : rgbToHex (hexToRgb "#FF0000") = "#ff0000" := by
    rw [hexToRgb_of_valid (show ("#FF0000" : String).data =
      ['#', 'F', 'F', '0', '0', '0', '0'] from rfl), rgbToHex_natCasts]
    decide
  exact ⟨by decide, by decide, by rw [h1, h2], by rw [h1, h2]; decide⟩

end CodaHsluv

namespace CodaHsluv

lemma getLuminance_black : getLuminance "#000000" = 0 := by
  have h : hexToRgb "#000000" = [0, 0, 0] := by decide
  simp only [getLuminance, h, List.map_cons, List.map_nil, List.getD_cons_zero,
    List.getD_cons_succ]
  rw [show ((0 : ℚ) : ℝ) / 255 = 0 from by norm_num]
  rw [linearizeChannel, if_pos (by norm_num)]
  norm_num

lemma getLuminance_white : getLuminance "#FFFFFF" = 1 := by
  have h : hexToRgb "#FFFFFF" = [255, 255, 255] := by decide
  simp only [getLuminance, h, List.map_cons, List.map_nil, List.getD_cons_zero,
    List.getD_cons_succ]
  rw [show ((255 : ℚ) : ℝ) / 255 = 1 from by norm_num]
  rw [linearizeChannel, if_neg (by norm_num),
    show ((1 : ℝ) + 0.055) / 1.055 = 1 from by norm_num, Real.one_rpow]
  norm_num

lemma contrastRatio_black_white : calculateContrastRatio "#000000" "#FFFFFF" = 21 := by
  rw [calculateContrastRatio, getLuminance_black, getLuminance_white]
  rw [show max (0 : ℝ) 1 = 1 from by norm_num, show min (0 : ℝ) 1 = 0 from by norm_num]
  rw [show ((1 : ℝ) + 0.05) / (0 + 0.05) = 21 from by norm_num]
  rw [toFixed2, show (21 : ℝ) * 100 = ((2100 : ℤ) : ℝ) from by norm_num, round_intCast]
  norm_num

lemma linearizeChannel_mem {x : ℝ} (h0 : 0 ≤ x) (h1 : x ≤ 1) :
    0 ≤ linearizeChannel x ∧ linearizeChannel x ≤ 1 := by
  rw [linearizeChannel]
  split_ifs with h
  · constructor
    · positivity
    · rw [div_le_one (by norm_num)]
      linarith
  · have hb0 : (0 : ℝ) ≤ (x + 0.055) / 1.055 := by positivity
    have hb1 : (x + 0.055) / 1.055 ≤ 1 := by
      rw [div_le_one (by norm_num)]
      linarith
    exact ⟨Real.rpow_nonneg hb0 _, Real.rpow_le_one hb0 hb1 (by norm_num)⟩

lemma getLuminance_mem {s : String} (h : isValidHexColor s = true) :
    0 ≤ getLuminance s ∧ getLuminance s ≤ 1 := by
  obtain ⟨c₁, c₂, c₃, c₄, c₅, c₆, hs, h1, h2, h3, h4, h5, h6⟩ := valid_structure h
  have hb : ∀ cx cy : Char, isHexDigitChar cx = true → isHexDigitChar cy = true →
      0 ≤ ((((16 * hexVal cx + hexVal cy : ℕ) : ℚ) : ℝ) / 255) ∧
      ((((16 * hexVal cx + hexVal cy : ℕ) : ℚ) : ℝ) / 255) ≤ 1 := by
    intro cx cy hx hy
    have lx := hexVal_lt hx
    have ly := hexVal_lt hy
    have hle : ((16 * hexVal cx + hexVal cy : ℕ) : ℝ) ≤ 255 := by
      have : 16 * hexVal cx + hexVal cy ≤ 255 := by omega
      exact_mod_cast this
    constructor
    · positivity
    · rw [div_le_one (by norm_num)]
      push_cast
      push_cast at hle
      linarith
  have m1 := hb c₁ c₂ h1 h2
  have m2 := hb c₃ c₄ h3 h4
  have m3 := hb c₅ c₆ h5 h6
  simp only [getLuminance, hexToRgb_of_valid hs, List.map_cons, List.map_nil,
    List.getD_cons_zero, List.getD_cons_succ]
  have l1 := linearizeChannel_mem m1.1 m1.2
  have l2 := linearizeChannel_mem m2.1 m2.2
  have l3 := linearizeChannel_mem m3.1 m3.2
  constructor
  · nlinarith [l1.1, l2.1, l3.1]
  · nlinarith [l1.2, l2.2, l3.2, l1.1, l2.1, l3.1]

lemma contrastRatio_comm (a b : String) :
    calculateContrastRatio a b = calculateContrastRatio b a := by
  rw [calculateContrastRatio, calculateContrastRatio, max_comm, min_comm]

lemma contrastRatio_le_21 {a b : String}
    (ha : isValidHexColor a = true) (hb : isValidHexColor b = true) :
    calculateContrastRatio a b ≤ 21 := by
  have la := getLuminance_mem ha
  have lb := getLuminance_mem hb
  rw [calculateContrastRatio]
  have hminpos : (0 : ℝ) < min (getLuminance a) (getLuminance b) + 0.05 := by
    have : (0 : ℝ) ≤ min (getLuminance a) (getLuminance b) := le_min la.1 lb.1
    linarith
  have hx : (max (getLuminance a) (getLuminance b) + 0.05) /
      (min (getLuminance a) (getLuminance b) + 0.05) ≤ 21 := by
    rw [div_le_iff hminpos]
    have h1 : max (getLuminance a) (getLuminance b) ≤ 1 := max_le la.2 lb.2
    have h2 : (0 : ℝ) ≤ min (getLuminance a) (getLuminance b) := le_min la.1 lb.1
    nlinarith
  rw [toFixed2]
  have hr : round ((max (getLuminance a) (getLuminance b) + 0.05) /
      (min (getLuminance a) (getLuminance b) + 0.05) * 100) ≤ 2100 := by
    rw [round_eq]
    have hle : (max (getLuminance a) (getLuminance b) + 0.05) /
        (min (getLuminance a) (getLuminance b) + 0.05) * 100 + 1/2 ≤ 2100.5 := by nlinarith
    calc ⌊(max (getLuminance a) (getLuminance b) + 0.05) /
        (min (getLuminance a) (getLuminance b) + 0.05) * 100 + 1/2⌋
        ≤ ⌊(2100.5 : ℝ)⌋ := Int.floor_le_floor hle
      _ = 2100 := by norm_num
  rw [div_le_iff (by norm_num : (0:ℝ) < 100)]
  calc (round ((max (getLuminance a) (getLuminance b) + 0.05) /
      (min (getLuminance a) (getLuminance b) + 0.05) * 100) : ℝ)
      ≤ ((2100 : ℤ) : ℝ) := by exact_mod_cast hr
    _ = 21 * 100 := by norm_num

/-- Claim C7: `checkAccessibility` holds exactly when the rounded contrast
ratio reaches the fixed threshold selected by level and size (4.5 AA/small,
3.0 AA/large, 7.0 AAA/small, 4.5 AAA/large); black on white passes AA/small,
and any ratio of exactly 3.0 reaches the AA/large threshold but not the
AA/small one. -/
theorem checkAccessibility_spec :
    (∀ (fg bg : String) (level : WCAGLevel) (size : TextSize),
      checkAccessibility fg bg level size ↔
        calculateContrastRatio fg bg ≥ wcagThreshold level size) ∧
    (wcagThreshold WCAGLevel.AA TextSize.small = 4.5 ∧
      wcagThreshold WCAGLevel.AA TextSize.large = 3 ∧
      wcagThreshold WCAGLevel.AAA TextSize.small = 7 ∧
      wcagThreshold WCAGLevel.AAA TextSize.large = 4.5) ∧
    checkAccessibility "#000000" "#FFFFFF" WCAGLevel.AA TextSize.small ∧
    (∀ r : ℝ, r = 3 →
      r ≥ wcagThreshold WCAGLevel.AA TextSize.large ∧
      ¬ r ≥ wcagThreshold WCAGLevel.AA TextSize.small) := by
  have hiff : ∀ (fg bg : String) (level : WCAGLevel) (size : TextSize),
      checkAccessibility fg bg level size ↔
        calculateContrastRatio fg bg ≥ wcagThreshold level size := by
    intro fg bg level size
    cases level <;> cases size <;>
      simp only [checkAccessibility, wcagThreshold, WCAG_CONTRAST_RATIOS] <;>
      norm_num
  refine ⟨hiff, ⟨rfl, rfl, rfl, rfl⟩, ?_, ?_⟩
  · rw [hiff, contrastRatio_black_white, wcagThreshold]
    norm_num
  · rintro r rfl
    rw [wcagThreshold, wcagThreshold]
    norm_num

/-- Claim C8: the contrast ratio is symmetric, evaluates to exactly 21 on the
black/white pair, and 21 is an upper bound over all valid hex colors. -/
theorem contrastRatio_spec (a b : String)
    (ha : isValidHexColor a = true) (hb : isValidHexColor b = true) :
    calculateContrastRatio a b = calculateContrastRatio b a ∧
    calculateContrastRatio "#000000" "#FFFFFF" = 21 ∧
    calculateContrastRatio a b ≤ 21 :=
  ⟨contrastRatio_comm a b, contrastRatio_black_white, contrastRatio_le_21 ha hb⟩

/-- Witness for C8 at the black/white pair. -/
theorem contrastRatio_spec_witness :
    calculateContrastRatio "#000000" "#FFFFFF" = calculateContrastRatio "#FFFFFF" "#000000" ∧
    calculateContrastRatio "#000000" "#FFFFFF" = 21 ∧
    calculateContrastRatio "#000000" "#FFFFFF" ≤ 21 :=
  contrastRatio_spec "#000000" "#FFFFFF" (by decide) (by decide)

/-- Claim C10: each of the three dichromacy matrices has non-negative rows
summing to exactly 1, and therefore every output channel of
`simulateColorBlindness` on channels in [0,255] is an integer in [0,255],
without any clamp. -/
theorem simulateColorBlindness_in_range (t : ColorBlindnessType) (r g b : ℚ)
    (hr0 : 0 ≤ r) (hr1 : r ≤ 255) (hg0 : 0 ≤ g) (hg1 : g ≤ 255)
    (hb0 : 0 ≤ b) (hb1 : b ≤ 255) :
    (0 ≤ (matrices t).a00 ∧ 0 ≤ (matrices t).a01 ∧ 0 ≤ (matrices t).a02 ∧
      0 ≤ (matrices t).a10 ∧ 0 ≤ (matrices t).a11 ∧ 0 ≤ (matrices t).a12 ∧
      0 ≤ (matrices t).a20 ∧ 0 ≤ (matrices t).a21 ∧ 0 ≤ (matrices t).a22) ∧
    ((matrices t).a00 + (matrices t).a01 + (matrices t).a02 = 1 ∧
      (matrices t).a10 + (matrices t).a11 + (matrices t).a12 = 1 ∧
      (matrices t).a20 + (matrices t).a21 + (matrices t).a22 = 1) ∧
    ((0 ≤ (simulateColorBlindness r g b t).1 ∧ (simulateColorBlindness r g b t).1 ≤ 255) ∧
      (0 ≤ (simulateColorBlindness r g b t).2.1 ∧ (simulateColorBlindness r g b t).2.1 ≤ 255) ∧
      (0 ≤ (simulateColorBlindness r g b t).2.2 ∧ (simulateColorBlindness r g b t).2.2 ≤ 255)) := by
  cases t <;>
    exact ⟨by norm_num [matrices],
      by norm_num [matrices],
      ⟨jsRound_mem_Icc (by norm_num [matrices]; linarith) (by norm_num [matrices]; linarith),
        jsRound_mem_Icc (by norm_num [matrices]; linarith) (by norm_num [matrices]; linarith),
        jsRound_mem_Icc (by norm_num [matrices]; linarith) (by norm_num [matrices]; linarith)⟩⟩

/-- Witness for C10 at protanopia on pure red (255, 0, 0). -/
theorem simulateColorBlindness_in_range_witness :
    (0 ≤ (matrices ColorBlindnessType.protanopia).a00 ∧
      0 ≤ (matrices ColorBlindnessType.protanopia).a01 ∧
      0 ≤ (matrices ColorBlindnessType.protanopia).a02 ∧
      0 ≤ (matrices ColorBlindnessType.protanopia).a10 ∧
      0 ≤ (matrices ColorBlindnessType.protanopia).a11 ∧
      0 ≤ (matrices ColorBlindnessType.protanopia).a12 ∧
      0 ≤ (matrices ColorBlindnessType.protanopia).a20 ∧
      0 ≤ (matrices ColorBlindnessType.protanopia).a21 ∧
      0 ≤ (matrices ColorBlindnessType.protanopia).a22) ∧
    ((matrices ColorBlindnessType.protanopia).a00 +
        (matrices ColorBlindnessType.protanopia).a01 +
        (matrices ColorBlindnessType.protanopia).a02 = 1 ∧
      (matrices ColorBlindnessType.protanopia).a10 +
        (matrices ColorBlindnessType.protanopia).a11 +
        (matrices ColorBlindnessType.protanopia).a12 = 1 ∧
      (matrices ColorBlindnessType.protanopia).a20 +
        (matrices ColorBlindnessType.protanopia).a21 +
        (matrices ColorBlindnessType.protanopia).a22 = 1) ∧
    ((0 ≤ (simulateColorBlindness 255 0 0 ColorBlindnessType.protanopia).1 ∧
        (simulateColorBlindness 255 0 0 ColorBlindnessType.protanopia).1 ≤ 255) ∧
      (0 ≤ (simulateColorBlindness 255 0 0 ColorBlindnessType.protanopia).2.1 ∧
        (simulateColorBlindness 255 0 0 ColorBlindnessType.protanopia).2.1 ≤ 255) ∧
      (0 ≤ (simulateColorBlindness 255 0 0 ColorBlindnessType.protanopia).2.2 ∧
        (simulateColorBlindness 255 0 0 ColorBlindnessType.protanopia).2.2 ≤ 255)) :=
  simulateColorBlindness_in_range ColorBlindnessType.protanopia 255 0 0
    (by norm_num) (by norm_num) (by norm_num) (by norm_num) (by norm_num) (by norm_num)

end CodaHsluv
